import Mathlib

/-!
Verification of the rubber-duck agent orchestration core.

This file gives a shallow Lean embedding of the components specified for the
repository: the early-return heuristics (`src/rubber_duck/agent/loop.py`),
the journal context-window builder, the orchestration loops, the tool
dispatch registry and path guard (`src/rubber_duck/agent/tools.py`), the
checkpoint decision logic (`src/rubber_duck/handlers/conversation.py`) and
the preemption state machine (`src/rubber_duck/preemption.py`), together
with theorems settling the frozen claims about them.

Python strings are modelled by Lean `String`; the Python operations
`lower`, `strip`, `endswith` and substring containment are implemented
over character lists so that everything evaluates inside the kernel.
I/O side effects (journal appends, logging, Discord message edits) are not
observable by any claim and are dropped; every observable value they
influence is modelled explicitly.
-/

set_option maxRecDepth 8000

namespace RubberDuck

/-- The apostrophe character, used to build string literals of the source
without writing a quote character directly inside a literal. -/
def apos : String := String.singleton (Char.ofNat 39)

/-- Decides whether the first character list is a prefix of the second
(the helper behind Python substring containment `needle in hay`). -/
def isPref : List Char → List Char → Bool
  | [], _ => true
  | _ :: _, [] => false
  | a :: as, b :: bs => a == b && isPref as bs

/-- Decides whether `needle` occurs as a contiguous run inside `hay`,
matching Python `needle in hay` on character lists. -/
def listContains (needle : List Char) : List Char → Bool
  | [] => needle.isEmpty
  | c :: t => isPref needle (c :: t) || listContains needle t

/-- Python substring containment `needle in hay` on strings. -/
def strContains (needle hay : String) : Bool :=
  listContains needle.toList hay.toList

/-- Python `str.lower()` (ASCII case folding, which is all the source
markers need). -/
def pyLower (s : String) : String :=
  String.mk (s.toList.map Char.toLower)

/-- Python `str.strip()`: drop leading and trailing whitespace. -/
def pyStrip (s : String) : String :=
  String.mk (((s.toList.dropWhile Char.isWhitespace).reverse.dropWhile
      Char.isWhitespace).reverse)

/-- Error markers of `_tool_succeeded` (loop.py lines 328-331), verbatim
from the source including the `exception:` marker. -/
def error_signals : List String :=
  ["error:", "failed:", "exception:", "not found", "denied",
   "unauthorized", "timeout", "could not", "unable to"]

/-- Embedding of `_tool_succeeded` (loop.py lines 326-333): a tool result
is a success unless its lowercased text contains one of the error
markers. -/
def tool_succeeded (result : String) : Bool :=
  let result_lower := pyLower result
  !(error_signals.any (fun signal => strContains signal result_lower))

/-- Intent phrases of `_is_intent_text` (loop.py lines 354-360), verbatim
from the source. -/
def intent_phrases : List String :=
  ["let me ", "i" ++ apos ++ "ll ", "i will ",
   "i" ++ apos ++ "m going to ", "let" ++ apos ++ "s "]

/-- Embedding of `_is_intent_text` (loop.py lines 336-361): empty text
(after stripping), text ending in a colon, or text whose final 100
characters contain a first-person intent phrase is classified as intent
narration.  Python `text.endswith(":")` is the last-character test since
the needle has one character; `text[-100:]` is the last 100 characters. -/
def is_intent_text (text0 : String) : Bool :=
  let text := (pyStrip text0).toList
  if text.isEmpty then true
  else if text.getLast? == some ':' then true
  else
    let tail := if 100 < text.length then text.drop (text.length - 100) else text
    let tailLower := tail.map Char.toLower
    intent_phrases.any (fun phrase => listContains phrase.toList tailLower)

/-- The eight error markers listed by the claim (and by spec section 4.5),
written from the claim text for refinement comparison with
`error_signals`; the source list `error_signals` additionally contains
`exception:`. -/
def claimed_error_markers : List String :=
  ["error:", "failed:", "not found", "denied",
   "unauthorized", "timeout", "could not", "unable to"]

/-! ## Preemption state machine (`src/rubber_duck/preemption.py`)

Timestamps (`datetime.now(UTC)`) are modelled as integers counting seconds;
`(now - started_at).total_seconds()` is integer subtraction.  The module
level singleton `_state` is modelled by passing the state explicitly; each
mutating Python function becomes a function from state to state, and
`check_stuck` additionally returns its boolean result. -/

/-- Embedding of `BotStatus` (preemption.py lines 11-16). -/
inductive BotStatus
  | idle
  | working
  | wrapping_up
deriving DecidableEq

/-- Embedding of `BotState` (preemption.py lines 19-27) with its dataclass
defaults. -/
structure BotState where
  status : BotStatus := .idle
  current_task : Option String := none
  started_at : Option Int := none
  preempt_requested : Bool := false
  preempt_reason : Option String := none
deriving DecidableEq

/-- The module-level initial state `_state = BotState()`. -/
def initial_state : BotState := {}

/-- Embedding of `start_work` (preemption.py lines 38-42); `now` is the
current time passed explicitly. -/
def start_work (now : Int) (description : String) (s : BotState) : BotState :=
  { s with status := .working, current_task := some description,
           started_at := some now }

/-- Embedding of `finish_work` (preemption.py lines 45-49). -/
def finish_work (s : BotState) : BotState :=
  { s with status := .idle, current_task := none, started_at := none }

/-- Embedding of `request_preempt` (preemption.py lines 52-55). -/
def request_preempt (reason : String) (s : BotState) : BotState :=
  { s with preempt_requested := true, preempt_reason := some reason }

/-- Embedding of `clear_preempt` (preemption.py lines 58-61). -/
def clear_preempt (s : BotState) : BotState :=
  { s with preempt_requested := false, preempt_reason := none }

/-- Embedding of `should_yield` (preemption.py lines 64-66); reads the
state and mutates nothing. -/
def should_yield (s : BotState) : Bool :=
  s.preempt_requested

/-- Embedding of `check_stuck` (preemption.py lines 69-81): if not working
or no start time, return false unchanged; otherwise reset via
`finish_work` exactly when strictly more than 600 seconds elapsed. -/
def check_stuck (now : Int) (s : BotState) : Bool × BotState :=
  match s.status, s.started_at with
  | .working, some t =>
      if 600 < now - t then (true, finish_work s) else (false, s)
  | _, _ => (false, s)

/-- The invariant of claim C7: working implies a start time is recorded,
and idle implies no current task and no start time. -/
def StateInv (s : BotState) : Prop :=
  (s.status = .working → s.started_at ≠ none)
  ∧ (s.status = .idle → s.current_task = none ∧ s.started_at = none)

instance (s : BotState) : Decidable (StateInv s) := by
  unfold StateInv
  infer_instance

/-! ## Tool dispatch and the path guard (`src/rubber_duck/agent/tools.py`)

A Python handler either returns a string or raises; this is modelled as a
function into `Except String String`, where `.error e` is a raised
exception carrying its rendered message `str(e)`.  The registry
`TOOL_FUNCTIONS` is modelled as an association list from tool names to
handlers; arguments (`**arguments`) are an opaque association list.  The
repository file tree under `REPO_ROOT` is modelled as an association list
from relative path strings to file contents. -/

/-- Tool arguments: a map of named JSON arguments, kept opaque. -/
abbrev Args := List (String × String)

/-- The tool registry `TOOL_FUNCTIONS` (tools.py lines 1559-1599),
abstracted over its concrete entries. -/
structure ToolRegistry where
  handlers : List (String × (Args → Except String String))

/-- Embedding of `execute_tool` (tools.py lines 1602-1619): an unknown
name yields the fixed unknown-tool error text, a handler exception is
caught and rendered, and a handler result is passed through.  The
function is total: it always returns a string to the caller. -/
def execute_tool (reg : ToolRegistry) (name : String) (arguments : Args) : String :=
  match reg.handlers.lookup name with
  | none => "Error: Unknown tool " ++ apos ++ name ++ apos
  | some f =>
      match f arguments with
      | .ok r => r
      | .error e => "Error executing " ++ name ++ ": " ++ e

/-- The forbidden path components `FORBIDDEN_PATHS` (tools.py line 44). -/
def FORBIDDEN_PATHS : List String := [".git", ".env", "secrets"]

/-- Splits a character list at every slash. -/
def splitOnSlash : List Char → List (List Char)
  | [] => [[]]
  | c :: rest =>
    match splitOnSlash rest with
    | [] => [[]]
    | cur :: parts =>
        if c = '/' then [] :: cur :: parts else (c :: cur) :: parts

/-- The components of a relative path, modelling `Path(path).parts`:
split on the separator, dropping empty components. -/
def pathParts (path : String) : List String :=
  ((splitOnSlash path.toList).filter (fun l => !l.isEmpty)).map String.mk

/-- Embedding of `_is_safe_path` (tools.py lines 47-50): a path is safe
when none of its components is forbidden. -/
def is_safe_path (path : String) : Bool :=
  !(pathParts path).any (fun part => FORBIDDEN_PATHS.contains part)

/-- The repository file tree: relative path strings mapped to contents. -/
structure FileSystem where
  files : List (String × String)

/-- Embedding of `read_file` (tools.py lines 57-82): refuse protected
paths, then report a missing file, an oversized file (more than 100000),
or return the contents.  Directory nodes and OS read errors are not
modelled; they only produce further error strings on safe paths and are
irrelevant to the protected-path claim. -/
def read_file (fs : FileSystem) (path : String) : String :=
  if !is_safe_path path then "Error: Cannot read from protected path: " ++ path
  else
    match fs.files.lookup path with
    | none => "Error: File not found: " ++ path
    | some content =>
        if 100000 < content.length then
          "Error: File too large (>100KB): " ++ path
        else content

/-- Embedding of `write_file` (tools.py lines 85-105): refuse protected
paths leaving the tree unchanged, otherwise store the content and report
the byte count. -/
def write_file (fs : FileSystem) (path content : String) : String × FileSystem :=
  if !is_safe_path path then
    ("Error: Cannot write to protected path: " ++ path, fs)
  else
    ("Successfully wrote " ++ toString content.length ++ " bytes to " ++ path,
     ⟨(path, content) :: fs.files⟩)

/-! ## Journal reading and the context window builder (loop.py lines 80-163)

A journal line either fails JSON decoding (`JLine.invalid`, raising
`json.JSONDecodeError`, which `_parse_journal_entry` catches) or decodes
to a JSON value.  JSON values are modelled by `JVal`; Python `dict.get`
becomes association-list lookup, and Python truthiness of the `content`
field is `JVal.truthy`.  Calling `.get` on a decoded value that is not an
object raises an `AttributeError`, which `_parse_journal_entry` does NOT
catch: this is modelled by `Except PyErr`, and `_get_recent_context`
catches it in its outer handler, returning the empty context.  A missing
journal file is the `none` journal. -/

/-- JSON values as far as the journal reader inspects them. -/
inductive JVal
  | jstr (s : String)
  | jnum (n : Int)
  | jbool (b : Bool)
  | jnull
  | jarr (elems : List JVal)
  | jobj (fields : List (String × JVal))

/-- Python truthiness of a JSON value. -/
def JVal.truthy : JVal → Bool
  | .jstr s => !s.isEmpty
  | .jnum n => n != 0
  | .jbool b => b
  | .jnull => false
  | .jarr elems => !elems.isEmpty
  | .jobj fields => !fields.isEmpty

/-- Tests whether an optional JSON value is the given string (Python
`entry.get("type") == "user_message"`). -/
def jvalIsStr : Option JVal → String → Bool
  | some (.jstr s), t => s == t
  | _, _ => false

/-- A raw journal line: either text that fails JSON decoding, or a JSON
value. -/
inductive JLine
  | invalid
  | jsonVal (v : JVal)

/-- The message role in an Anthropic conversation. -/
inductive Role
  | user
  | assistant
deriving DecidableEq

/-- A context message `{"role": ..., "content": ...}` produced by the
journal reader. -/
structure Msg where
  role : Role
  content : JVal

/-- The exception a non-object JSON value raises when `.get` is called on
it. -/
inductive PyErr
  | attributeError

/-- Embedding of `_parse_journal_entry` (loop.py lines 85-98): a line
that fails JSON decoding returns `none` (the `JSONDecodeError` branch);
an object line returns a user or assistant message when the `type` field
matches and the `content` field is truthy, and `none` otherwise; a
non-object JSON line raises `AttributeError`, which this function does
not catch. -/
def parse_journal_entry (line : JLine) : Except PyErr (Option Msg) :=
  match line with
  | .invalid => .ok none
  | .jsonVal v =>
    match v with
    | .jobj fields =>
        let entry_type := fields.lookup "type"
        let content := (fields.lookup "content").getD (.jstr "")
        if jvalIsStr entry_type "user_message" && content.truthy then
          .ok (some ⟨.user, content⟩)
        else if jvalIsStr entry_type "assistant_message" && content.truthy then
          .ok (some ⟨.assistant, content⟩)
        else .ok none
    | _ => .error .attributeError

/-- `RECENT_CONTEXT_LIMIT` (loop.py line 82). -/
def RECENT_CONTEXT_LIMIT : Nat := 3

/-- The last `n` elements of a list (Python `l[-n:]`, which is the whole
list when it is shorter than `n`). -/
def takeLast (n : Nat) (l : List α) : List α :=
  l.drop (l.length - n)

/-- The collection loop of `_get_recent_context` (loop.py lines 145-152):
walk the (already reversed) line window, skip lines parsed to `none`,
append parsed messages, and break once `RECENT_CONTEXT_LIMIT * 2 + 2`
messages are collected; a parse exception propagates. -/
def collectMsgs : List JLine → List Msg → Except PyErr (List Msg)
  | [], acc => .ok acc
  | l :: rest, acc =>
    match parse_journal_entry l with
    | .error e => .error e
    | .ok none => collectMsgs rest acc
    | .ok (some m) =>
        let acc2 := acc ++ [m]
        if RECENT_CONTEXT_LIMIT * 2 + 2 ≤ acc2.length then .ok acc2
        else collectMsgs rest acc2

/-- Flips the expected role (loop.py line 118). -/
def flipRole : Role → Role
  | .user => .assistant
  | .assistant => .user

/-- The forward walk of `_validate_message_alternation` (loop.py lines
113-118): keep exactly the messages matching the expected alternating
role. -/
def buildAlternation : List Msg → Role → List Msg
  | [], _ => []
  | m :: rest, expected =>
      if m.role = expected then m :: buildAlternation rest (flipRole expected)
      else buildAlternation rest expected

/-- The final step of `_validate_message_alternation` (loop.py lines
121-122): if the validated list ends with a user message, drop it. -/
def dropTrailingUser (validated : List Msg) : List Msg :=
  match validated.getLast? with
  | some m => if m.role = .user then validated.dropLast else validated
  | none => validated

/-- Embedding of `_validate_message_alternation` (loop.py lines 101-124):
drop everything before the first user message, keep an alternating
subsequence starting with user, and drop a trailing user message. -/
def validate_message_alternation (messages : List Msg) : List Msg :=
  match messages with
  | [] => []
  | _ :: _ =>
    let tail := messages.dropWhile (fun m => !(m.role = .user : Bool))
    dropTrailingUser (buildAlternation tail .user)

/-- Embedding of `_get_recent_context` (loop.py lines 127-163): a missing
journal yields the empty context; otherwise read the last 200 lines from
the end, collect recent user/assistant messages, restore chronological
order, keep the last `RECENT_CONTEXT_LIMIT * 2` and validate alternation.
Any exception in the body (in particular the `AttributeError` from a
non-object JSON line) is caught by the outer handler, which returns the
empty context. -/
def get_recent_context (journal : Option (List JLine)) : List Msg :=
  match journal with
  | none => []
  | some lines =>
    match collectMsgs ((takeLast 200 lines).reverse) [] with
    | .error _ => []
    | .ok messages =>
        let recent := takeLast (RECENT_CONTEXT_LIMIT * 2) messages.reverse
        validate_message_alternation recent

/-- Roles in the list strictly alternate, starting from the given
expected role. -/
def rolesAlternatingFrom : Role → List Msg → Bool
  | _, [] => true
  | r, m :: rest =>
      if m.role = r then rolesAlternatingFrom (flipRole r) rest else false

/-! ## The orchestration loop (`run_agent_loop`, loop.py lines 364-433)

The Anthropic client is modelled by a function from the current message
list to the next model response; quantifying over it covers every
sequence of model responses.  Tool execution inside the loop is modelled
by a function from a tool-use block to its result string (the loop only
observes that string).  The loop returns its result together with the
trace of `tool_calls` counter values at which the model was called, so
the number of model calls and the monotonicity of the counter are
observable.  Provider failures (the `except` around `messages.create`)
abort the loop with an apology and are not reachable from a total model
function, so they do not appear. -/

/-- A `tool_use` content block of a model response. -/
structure ToolBlock where
  id : String
  name : String
  input : Args

/-- A model response, split into its text blocks and tool-use blocks. -/
structure ModelResponse where
  textBlocks : List String
  toolBlocks : List ToolBlock

/-- A `tool_result` entry sent back to the model. -/
structure ToolResult where
  tool_use_id : String
  content : String

/-- Content of one entry of the `messages` list sent to the model. -/
inductive MsgContent
  | str (s : String)
  | blocks (r : ModelResponse)
  | results (rs : List ToolResult)

/-- One entry of the `messages` list sent to the model. -/
structure AnthMsg where
  role : Role
  content : MsgContent

/-- `MAX_TOOL_CALLS` (loop.py line 45). -/
def MAX_TOOL_CALLS : Nat := 20

/-- `MAX_TOOL_CALLS_SIMPLE` (loop.py line 46). -/
def MAX_TOOL_CALLS_SIMPLE : Nat := 5

/-- The fixed message returned on budget exhaustion (loop.py line 433). -/
def TOO_MANY_TOOLS_MESSAGE : String :=
  "I" ++ apos ++ "ve made too many tool calls. Let me know what else you need."

/-- Embedding of `_extract_final_text` (loop.py lines 319-323): join the
text blocks with newlines (the journal append is a side effect). -/
def extract_final_text (text_blocks : List String) : String :=
  String.intercalate "\n" text_blocks

/-- The success-gated early-return condition (loop.py lines 423-425):
there is a text block, every tool result of the turn passes
`tool_succeeded`, and the joined text is not intent narration. -/
def early_return_fires (text_blocks : List String)
    (tool_results : List ToolResult) : Bool :=
  let all_succeeded := tool_results.all (fun r => tool_succeeded r.content)
  let response_text :=
    if text_blocks.isEmpty then "" else String.intercalate "\n" text_blocks
  !text_blocks.isEmpty && all_succeeded && !is_intent_text response_text

/-- How one invocation of `run_agent_loop` can return. -/
inductive RunResult
  | finalResponse (text : String)
  | earlyReturn (text : String)
  | budgetExceeded (message : String)

/-- Outcome of one loop turn after the model call: either a return from
the loop or the updated messages and counter for the next iteration. -/
inductive LoopStep
  | halt (r : RunResult)
  | next (messages : List AnthMsg) (tool_calls : Nat)

/-- The body of one iteration of `run_agent_loop` after the model call
(loop.py lines 409-431): a response without tool-use blocks is the final
response; otherwise all tools of the turn execute in order, the counter
grows by the number of results, the early-return gate may fire, and
otherwise the raw assistant blocks and the tool results are appended to
the message list for the next model call. -/
def loopTurn (execTool : ToolBlock → String) (response : ModelResponse)
    (messages : List AnthMsg) (tool_calls : Nat) : LoopStep :=
  if response.toolBlocks.isEmpty then
    .halt (.finalResponse (extract_final_text response.textBlocks))
  else if early_return_fires response.textBlocks
      (response.toolBlocks.map (fun b => ToolResult.mk b.id (execTool b))) then
    .halt (.earlyReturn (extract_final_text response.textBlocks))
  else
    .next (messages
        ++ [⟨.assistant, .blocks response⟩,
            ⟨.user, .results (response.toolBlocks.map
              (fun b => ToolResult.mk b.id (execTool b)))⟩])
      (tool_calls
        + (response.toolBlocks.map (fun b => ToolResult.mk b.id (execTool b))).length)

/-- Embedding of the `while tool_calls < max_tools` loop of
`run_agent_loop` (loop.py lines 395-433), returning the result together
with the counter value at each model call. -/
def runLoopAux (model : List AnthMsg → ModelResponse)
    (execTool : ToolBlock → String) (max_tools : Nat)
    (messages : List AnthMsg) (tool_calls : Nat) : RunResult × List Nat :=
  if tool_calls < max_tools then
    match _hstep : loopTurn execTool (model messages) messages tool_calls with
    | .halt r => (r, [tool_calls])
    | .next messages2 tool_calls2 =>
        let nxt := runLoopAux model execTool max_tools messages2 tool_calls2
        (nxt.1, tool_calls :: nxt.2)
  else (.budgetExceeded TOO_MANY_TOOLS_MESSAGE, [])
termination_by max_tools - tool_calls
decreasing_by
  have hgt : tool_calls < tool_calls2 := by
    unfold loopTurn at _hstep
    split at _hstep
    · exact absurd _hstep (by simp)
    · next hne =>
      split at _hstep
      · exact absurd _hstep (by simp)
      · injection _hstep with h1 h2
        have hpos : 0 < (model messages).toolBlocks.length := by
          cases hl : (model messages).toolBlocks with
          | nil => rw [hl] at hne; exact absurd rfl hne
          | cons a t => simp [hl]
        simp only [List.length_map] at h2
        omega
  simp_wf
  omega

/-- Embedding of the entry of `run_agent_loop` (loop.py lines 382-396):
the budget is `MAX_TOOL_CALLS_SIMPLE` for a simple task and
`MAX_TOOL_CALLS` otherwise, and the loop starts with counter zero on the
initial message list (recent context plus the new user turn). -/
def run_agent_loop (model : List AnthMsg → ModelResponse)
    (execTool : ToolBlock → String) (is_simple : Bool)
    (messages : List AnthMsg) : RunResult × List Nat :=
  runLoopAux model execTool
    (if is_simple then MAX_TOOL_CALLS_SIMPLE else MAX_TOOL_CALLS) messages 0

/-! ## The interactive loop (`run_agent_loop_interactive`, loop.py lines
457-576) with the `InteractiveSession` callbacks (conversation.py)

The model is scripted as a list of responses consumed one per iteration
(`scriptEnded` marks the script running out, which stands for the real
`while True` loop continuing; every property of interest shows up on a
finite prefix).  The cancellation callback is an oracle indexed by a poll
counter that advances at every `check_cancelled` poll (one poll before
each model call and one before each tool).  The checkpoint callback is
`InteractiveSession.on_checkpoint`, driven by a queue of owner replies
(`none` is an `asyncio.wait_for` timeout); replies are normalized by the
listener (`msg.content.strip().lower()`) before keyword comparison.
Status-message rendering is a side effect and is dropped; the tool log
itself is tracked. -/

/-- `CANCEL_KEYWORDS` (conversation.py line 32). -/
def CANCEL_KEYWORDS : List String := ["stop", "cancel"]

/-- `CHECKPOINT_TIMEOUT` (conversation.py line 35), in seconds. -/
def CHECKPOINT_TIMEOUT : Nat := 15 * 60

/-- `CONTINUE_KEYWORDS` (conversation.py line 38). -/
def CONTINUE_KEYWORDS : List String := ["yes", "continue", "go", "ok", "keep going"]

/-- Embedding of `InteractiveSession.on_checkpoint` (conversation.py
lines 111-147): a timeout (`none`) stops; a reply in `CANCEL_KEYWORDS`
stops; a reply in `CONTINUE_KEYWORDS` continues; any other reply is
treated permissively as continue.  The reply is normalized the way the
message listener queues it (conversation.py line 78). -/
def on_checkpoint_decision (reply : Option String) : Bool :=
  match reply with
  | none => false
  | some raw =>
      if CANCEL_KEYWORDS.contains (pyLower (pyStrip raw)) then false
      else if CONTINUE_KEYWORDS.contains (pyLower (pyStrip raw)) then true
      else true

/-- An entry of the session tool log (`ToolStatus`, loop.py lines
436-449); `success = none` is an in-progress tool, which is always
resolved by the time the log is observed here. -/
structure ToolStatus where
  name : String
  success : Option Bool

/-- The checkpoint gate of the interactive loop (loop.py line 500):
`tool_calls >= MAX_TOOL_CALLS and tool_calls % MAX_TOOL_CALLS == 0`. -/
def checkpoint_due (tool_calls : Nat) : Bool :=
  MAX_TOOL_CALLS ≤ tool_calls && tool_calls % MAX_TOOL_CALLS == 0

/-- How one invocation of `run_agent_loop_interactive` can end. -/
inductive IResult
  | finalResponse (text : String)
  | earlyReturn (text : String)
  | checkpointStopped (toolsUsed : Nat) (log : List ToolStatus)
  | cancelledRes (log : List ToolStatus)
  | scriptEnded (tool_calls : Nat) (log : List ToolStatus)

/-- Observable events of the interactive loop, in order: each model call
tagged with the counter value at the call, and each checkpoint with the
counter value and the owner decision. -/
inductive IEvent
  | modelCall (tool_calls : Nat)
  | checkpointEvt (tool_calls : Nat) (decision : Bool)
deriving DecidableEq

/-- The per-turn tool execution loop of the interactive loop (loop.py
lines 530-563): before each tool the cancellation flag is polled; on
cancellation the loop returns with the log collected so far (`none`
result list).  Each executed tool appends a resolved `ToolStatus` whose
success is the `_tool_succeeded` judgement of its result. -/
def execToolsInteractive (execTool : ToolBlock → String) (cancel : Nat → Bool) :
    List ToolBlock → Nat → List ToolStatus →
    Option (List ToolResult) × Nat × List ToolStatus
  | [], poll, log => (some [], poll, log)
  | b :: rest, poll, log =>
      if cancel poll then (none, poll + 1, log)
      else
        match execToolsInteractive execTool cancel rest (poll + 1)
            (log ++ [⟨b.name, some (tool_succeeded (execTool b))⟩]) with
        | (none, p, l) => (none, p, l)
        | (some rs, p, l) => (some (⟨b.id, execTool b⟩ :: rs), p, l)

/-- Outcome of one interactive iteration: a return from the loop, or the
updated reply queue, poll counter, tool counter and log, each carrying
the events of the iteration. -/
inductive IStepOut
  | halt (r : IResult) (events : List IEvent)
  | next (replies : List (Option String)) (poll : Nat) (tool_calls : Nat)
      (log : List ToolStatus) (events : List IEvent)

/-- The turn body of the interactive loop from the model call onward
(loop.py lines 510-576): a response without tool blocks is final; tools
execute with per-tool cancellation polls; the early-return gate is the
same as in `run_agent_loop`; otherwise the loop continues.  `ckEvents`
are the events of the checkpoint that may precede this turn. -/
def interactiveTurn (execTool : ToolBlock → String) (cancel : Nat → Bool)
    (response : ModelResponse) (replies : List (Option String))
    (poll tool_calls : Nat) (tool_log : List ToolStatus)
    (ckEvents : List IEvent) : IStepOut :=
  if response.toolBlocks.isEmpty then
    .halt (.finalResponse (extract_final_text response.textBlocks))
      (ckEvents ++ [.modelCall tool_calls])
  else
    match execToolsInteractive execTool cancel response.toolBlocks poll tool_log with
    | (none, _, log2) =>
        .halt (.cancelledRes log2) (ckEvents ++ [.modelCall tool_calls])
    | (some tool_results, poll2, log2) =>
        if early_return_fires response.textBlocks tool_results then
          .halt (.earlyReturn (extract_final_text response.textBlocks))
            (ckEvents ++ [.modelCall tool_calls])
        else
          .next replies poll2 (tool_calls + tool_results.length) log2
            (ckEvents ++ [.modelCall tool_calls])

/-- The pre-turn checks and turn body of one interactive iteration
(loop.py lines 493-576): poll cancellation before the model call, then
the checkpoint gate (consuming one owner reply when it fires; a stop
decision returns the partial log), then the turn body. -/
def interactiveStep (execTool : ToolBlock → String) (cancel : Nat → Bool)
    (response : ModelResponse) (replies : List (Option String))
    (poll tool_calls : Nat) (tool_log : List ToolStatus) : IStepOut :=
  if cancel poll then .halt (.cancelledRes tool_log) []
  else if checkpoint_due tool_calls then
    if on_checkpoint_decision (replies.headD none) then
      interactiveTurn execTool cancel response replies.tail (poll + 1)
        tool_calls tool_log [.checkpointEvt tool_calls true]
    else
      .halt (.checkpointStopped tool_calls tool_log)
        [.checkpointEvt tool_calls false]
  else interactiveTurn execTool cancel response replies (poll + 1)
    tool_calls tool_log []

/-- Embedding of the `while True` loop of `run_agent_loop_interactive`
(loop.py lines 493-576), driven by a finite script of model responses:
when the script is exhausted the pre-turn checks still run and the run
ends in `scriptEnded`. -/
def run_agent_loop_interactive (execTool : ToolBlock → String)
    (cancel : Nat → Bool) :
    List ModelResponse → List (Option String) → Nat → Nat →
    List ToolStatus → IResult × List IEvent
  | [], replies, poll, tool_calls, tool_log =>
      if cancel poll then (.cancelledRes tool_log, [])
      else if checkpoint_due tool_calls then
        if on_checkpoint_decision (replies.headD none) then
          (.scriptEnded tool_calls tool_log, [.checkpointEvt tool_calls true])
        else
          (.checkpointStopped tool_calls tool_log,
           [.checkpointEvt tool_calls false])
      else (.scriptEnded tool_calls tool_log, [])
  | response :: rest, replies, poll, tool_calls, tool_log =>
      match interactiveStep execTool cancel response replies poll tool_calls tool_log with
      | .halt r events => (r, events)
      | .next replies2 poll2 tool_calls2 log2 events =>
          let nxt := run_agent_loop_interactive execTool cancel rest replies2
            poll2 tool_calls2 log2
          (nxt.1, events ++ nxt.2)

/-! ## Theorems settling the claims, with their supporting lemmas -/

/-- Claim C5 as stated is false: the source marker list also contains
`exception:`, so `tool_succeeded` rejects a result containing
`exception:` even though that text contains none of the eight markers the
claim enumerates, where the claim asserts `tool_succeeded` returns false
exactly on the eight listed markers. -/
theorem claim_C5_counterexample :
    tool_succeeded ("exception: boom") = false
    ∧ claimed_error_markers.all
        (fun m => !(strContains m (pyLower "exception: boom"))) = true := by
  constructor
  · decide
  · decide

/-- Claim C5, amended: `tool_succeeded s` is false exactly when the
lowercased `s` contains one of the nine source markers (the claim's eight
plus `exception:`); in particular the two concrete examples of the claim
hold, and the marker list is pinned verbatim. -/
theorem claim_C5_tool_succeeded :
    (∀ s : String, tool_succeeded s = false
        ↔ ∃ m ∈ error_signals, strContains m (pyLower s) = true)
    ∧ tool_succeeded "Created task: X [ID:1]" = true
    ∧ tool_succeeded "Error: not found" = false
    ∧ error_signals
        = ["error:", "failed:", "exception:", "not found", "denied",
           "unauthorized", "timeout", "could not", "unable to"] := by
  refine ⟨fun s => ?_, by decide, by decide, rfl⟩
  simp [tool_succeeded, List.any_eq_true]

/-- Witness for C5: the amended characterization evaluated at the concrete
input "Error: not found", whose lowercasing contains the marker
"error:". -/
theorem claim_C5_witness :
    tool_succeeded "Error: not found" = false
    ∧ ∃ m ∈ error_signals, strContains m (pyLower "Error: not found") = true := by
  refine ⟨claim_C5_tool_succeeded.2.2.1, ?_⟩
  exact (claim_C5_tool_succeeded.1 "Error: not found").mp claim_C5_tool_succeeded.2.2.1

/-- Claim C7: the invariant holds for the initial state and is preserved
by every operation of the module (`should_yield` reads the state without
changing it, so only the mutating operations and the watchdog appear). -/
theorem claim_C7_state_invariant :
    StateInv initial_state
    ∧ ∀ s : BotState, StateInv s →
        ∀ (now : Int) (description reason : String),
          StateInv (start_work now description s)
          ∧ StateInv (finish_work s)
          ∧ StateInv (request_preempt reason s)
          ∧ StateInv (clear_preempt s)
          ∧ StateInv (check_stuck now s).2 := by
  constructor
  · exact ⟨by simp [initial_state], by simp [initial_state]⟩
  · intro s hs now description reason
    refine ⟨⟨by simp [start_work], by simp [start_work]⟩,
            ⟨by simp [finish_work], by simp [finish_work]⟩,
            ⟨?_, ?_⟩, ⟨?_, ?_⟩, ?_⟩
    · simpa [request_preempt] using hs.1
    · simpa [request_preempt] using hs.2
    · simpa [clear_preempt] using hs.1
    · simpa [clear_preempt] using hs.2
    · unfold check_stuck
      rcases h : s.status with _ | _ | _ <;> rcases ht : s.started_at with _ | t <;>
        simp only [h, ht]
      all_goals try exact hs
      split
      · exact ⟨by simp [finish_work], by simp [finish_work]⟩
      · exact hs

/-- Witness for C7: invariant preservation applied to a concrete working
state after `start_work` at time 0. -/
theorem claim_C7_witness :
    StateInv (start_work 0 "archiving" initial_state)
    ∧ StateInv (finish_work (start_work 0 "archiving" initial_state)) := by
  have h0 : StateInv (start_work 0 "archiving" initial_state) :=
    (claim_C7_state_invariant.2 initial_state claim_C7_state_invariant.1
      0 "archiving" "reason").1
  exact ⟨h0, (claim_C7_state_invariant.2 _ h0 0 "x" "y").2.1⟩

/-- Claim C8: `check_stuck` returns true exactly when the state is working
with a recorded start time strictly more than 600 seconds old; when it
returns true the state is reset to idle with task and start time cleared
(and the preemption fields untouched), and when it returns false the state
is returned unchanged. -/
theorem claim_C8_check_stuck :
    ∀ (s : BotState) (now : Int),
      ((check_stuck now s).1 = true
        ↔ s.status = .working ∧ ∃ t, s.started_at = some t ∧ 600 < now - t)
      ∧ ((check_stuck now s).1 = true →
          (check_stuck now s).2
            = { s with status := .idle, current_task := none, started_at := none })
      ∧ ((check_stuck now s).1 = false → (check_stuck now s).2 = s) := by
  intro s now
  unfold check_stuck
  rcases h : s.status with _ | _ | _ <;> rcases ht : s.started_at with _ | t <;>
    simp only [h, ht]
  all_goals try simp
  by_cases hc : 600 < now - t
  · simp [hc, finish_work]
  · simp [hc]

/-- Witness for C8: a task started at time 0 checked at time 660 (11
simulated minutes later) is stuck and reset to idle. -/
theorem claim_C8_witness :
    (check_stuck 660 (start_work 0 "long task" initial_state)).1 = true
    ∧ (check_stuck 660 (start_work 0 "long task" initial_state)).2.status
        = BotStatus.idle := by
  constructor
  · exact (claim_C8_check_stuck (start_work 0 "long task" initial_state) 660).1.mpr
      ⟨by decide, 0, by decide, by decide⟩
  · have h := (claim_C8_check_stuck (start_work 0 "long task" initial_state) 660).2.1
      ((claim_C8_check_stuck (start_work 0 "long task" initial_state) 660).1.mpr
        ⟨by decide, 0, by decide, by decide⟩)
    rw [h]

/-- Claim C4: `execute_tool` never raises — for every registry, name and
argument map it returns a string, which is the unknown-tool error marker
when the name is not registered, the rendered caught-exception error
marker when the handler raises, and the handler's result otherwise. -/
theorem claim_C4_execute_tool_total :
    ∀ (reg : ToolRegistry) (name : String) (arguments : Args),
      (reg.handlers.lookup name = none →
        execute_tool reg name arguments
          = "Error: Unknown tool " ++ apos ++ name ++ apos)
      ∧ (∀ f, reg.handlers.lookup name = some f →
          (∀ e, f arguments = .error e →
            execute_tool reg name arguments
              = "Error executing " ++ name ++ ": " ++ e)
          ∧ (∀ r, f arguments = .ok r → execute_tool reg name arguments = r)) := by
  intro reg name arguments
  constructor
  · intro hnone
    simp [execute_tool, hnone]
  · intro f hf
    constructor
    · intro e he
      simp [execute_tool, hf, he]
    · intro r hr
      simp [execute_tool, hf, hr]

/-- Witness for C4: a concrete registry with one raising handler; the
unknown name and the raising handler both produce error-marker text. -/
theorem claim_C4_witness :
    execute_tool ⟨[("boom", fun _ => .error "kaboom")]⟩ "nope" []
      = "Error: Unknown tool " ++ apos ++ "nope" ++ apos
    ∧ execute_tool ⟨[("boom", fun _ => .error "kaboom")]⟩ "boom" []
      = "Error executing boom: kaboom" := by
  constructor
  · exact (claim_C4_execute_tool_total ⟨[("boom", fun _ => .error "kaboom")]⟩
      "nope" []).1 rfl
  · exact ((claim_C4_execute_tool_total ⟨[("boom", fun _ => .error "kaboom")]⟩
      "boom" []).2 (fun _ => .error "kaboom") rfl).1 "kaboom" rfl

/-- Claim C10: any path with a component among `.git`, `.env`, `secrets`
is refused by both file tools: `read_file` returns the protected-path
error marker and its result does not depend on the file tree (it reads
nothing), and `write_file` returns the protected-path error marker and
leaves the file tree unchanged. -/
theorem claim_C10_protected_paths :
    ∀ path : String, (∃ part ∈ pathParts path, part ∈ FORBIDDEN_PATHS) →
      (∀ fs, read_file fs path = "Error: Cannot read from protected path: " ++ path)
      ∧ (∀ fs fs2, read_file fs path = read_file fs2 path)
      ∧ (∀ fs content,
          write_file fs path content
            = ("Error: Cannot write to protected path: " ++ path, fs)) := by
  intro path hpart
  have hunsafe : is_safe_path path = false := by
    obtain ⟨part, hmem, hforb⟩ := hpart
    have hany : (pathParts path).any
        (fun part => FORBIDDEN_PATHS.contains part) = true := by
      rw [List.any_eq_true]
      refine ⟨part, hmem, ?_⟩
      fin_cases hforb <;> decide
    unfold is_safe_path
    rw [hany]
    rfl
  refine ⟨fun fs => ?_, fun fs fs2 => ?_, fun fs content => ?_⟩
  · simp [read_file, hunsafe]
  · simp [read_file, hunsafe]
  · simp [write_file, hunsafe]

/-- Witness for C10: the concrete path ".git/config" is refused by both
tools on a concrete file tree that does contain that key. -/
theorem claim_C10_witness :
    (∃ part ∈ pathParts (".git/config"), part ∈ FORBIDDEN_PATHS)
    ∧ read_file ⟨[(".git/config", "secret")]⟩ ".git/config"
        = "Error: Cannot read from protected path: .git/config"
    ∧ write_file ⟨[]⟩ ".git/config" "x"
        = ("Error: Cannot write to protected path: .git/config", ⟨[]⟩) := by
  have hex : ∃ part ∈ pathParts (".git/config"), part ∈ FORBIDDEN_PATHS := by
    refine ⟨".git", ?_, by decide⟩
    decide
  refine ⟨hex, ?_, ?_⟩
  · exact (claim_C10_protected_paths ".git/config" hex).1 ⟨[(".git/config", "secret")]⟩
  · exact (claim_C10_protected_paths ".git/config" hex).2.2 ⟨[]⟩ "x"

theorem buildAlternation_alternates :
    ∀ (l : List Msg) (r : Role),
      rolesAlternatingFrom r (buildAlternation l r) = true := by
  intro l
  induction l with
  | nil => intro r; rfl
  | cons m rest ih =>
    intro r
    by_cases h : m.role = r
    · simp [buildAlternation, rolesAlternatingFrom, h, ih (flipRole r)]
    · simp [buildAlternation, h, ih r]

theorem buildAlternation_length :
    ∀ (l : List Msg) (r : Role), (buildAlternation l r).length ≤ l.length := by
  intro l
  induction l with
  | nil => intro r; simp [buildAlternation]
  | cons m rest ih =>
    intro r
    unfold buildAlternation
    by_cases h : m.role = r
    · simp only [if_pos h, List.length_cons]
      exact Nat.succ_le_succ (ih (flipRole r))
    · simp only [if_neg h]
      exact Nat.le_trans (ih r) (Nat.le_succ _)

theorem rolesAlternatingFrom_dropLast :
    ∀ (l : List Msg) (r : Role), rolesAlternatingFrom r l = true →
      rolesAlternatingFrom r l.dropLast = true := by
  intro l
  induction l with
  | nil => intro r _; rfl
  | cons m rest ih =>
    intro r h
    cases rest with
    | nil => rfl
    | cons m2 rest2 =>
      show rolesAlternatingFrom r (m :: (m2 :: rest2).dropLast) = true
      simp only [rolesAlternatingFrom] at h ⊢
      by_cases hm : m.role = r
      · simp only [if_pos hm] at h ⊢
        exact ih (flipRole r) h
      · simp only [if_neg hm] at h
        exact absurd h (by simp)

/-- In an alternating list, the element before the last one carries the
flipped role of the last one. -/
theorem dropLast_getLast_role :
    ∀ (v : List Msg) (r : Role), rolesAlternatingFrom r v = true →
      ∀ m, v.dropLast.getLast? = some m →
        ∃ m2, v.getLast? = some m2 ∧ m.role = flipRole m2.role := by
  intro v
  induction v with
  | nil => intro r _ m hm; simp at hm
  | cons a rest ih =>
    intro r h m hm
    cases rest with
    | nil => simp at hm
    | cons b rest2 =>
      simp only [rolesAlternatingFrom] at h
      by_cases ha : a.role = r
      · simp only [if_pos ha] at h
        cases rest2 with
        | nil =>
          have hma : a = m := by simpa using hm
          subst hma
          refine ⟨b, by simp, ?_⟩
          simp only [rolesAlternatingFrom] at h
          by_cases hb : b.role = flipRole r
          · rw [ha, hb]
            cases r <;> rfl
          · simp only [if_neg hb] at h
            exact absurd h (by simp)
        | cons c rest3 =>
          have hm2 : (b :: c :: rest3).dropLast.getLast? = some m := by
            have hshape : (a :: b :: c :: rest3).dropLast
                = a :: b :: (c :: rest3).dropLast := rfl
            rw [hshape, List.getLast?_cons_cons] at hm
            exact hm
          obtain ⟨m2, hl, hrole⟩ := ih (flipRole r) h m hm2
          refine ⟨m2, ?_, hrole⟩
          rw [List.getLast?_cons_cons]
          exact hl
      · simp only [if_neg ha] at h
        exact absurd h (by simp)

theorem dropTrailingUser_good (v : List Msg)
    (halt : rolesAlternatingFrom .user v = true) :
    rolesAlternatingFrom .user (dropTrailingUser v) = true
    ∧ (∀ m, (dropTrailingUser v).getLast? = some m → m.role = .assistant)
    ∧ (dropTrailingUser v).length ≤ v.length := by
  cases hL : v.getLast? with
  | none =>
    have heq : dropTrailingUser v = v := by unfold dropTrailingUser; rw [hL]
    rw [heq]
    refine ⟨halt, ?_, le_refl _⟩
    intro m hm
    rw [hL] at hm
    exact Option.noConfusion hm
  | some mlast =>
    by_cases hrole : mlast.role = .user
    · have heq : dropTrailingUser v = v.dropLast := by
        unfold dropTrailingUser; rw [hL]; simp [hrole]
      rw [heq]
      refine ⟨rolesAlternatingFrom_dropLast v .user halt, ?_, ?_⟩
      · intro m hm
        obtain ⟨m2, hl2, hflip⟩ := dropLast_getLast_role v .user halt m hm
        rw [hL] at hl2
        obtain rfl : mlast = m2 := by injection hl2
        rw [hflip, hrole]
        rfl
      · rw [List.length_dropLast]
        omega
    · have heq : dropTrailingUser v = v := by
        unfold dropTrailingUser; rw [hL]; simp [hrole]
      rw [heq]
      refine ⟨halt, ?_, le_refl _⟩
      intro m hm
      rw [hL] at hm
      obtain rfl : mlast = m := by injection hm
      cases hmr : mlast.role with
      | user => exact absurd hmr hrole
      | assistant => rfl

theorem length_dropWhile_le (p : α → Bool) (l : List α) :
    (l.dropWhile p).length ≤ l.length := by
  induction l with
  | nil => simp
  | cons a t ih =>
    cases hp : p a
    · simp [List.dropWhile, hp]
    · simp only [List.dropWhile, hp]
      exact Nat.le_trans ih (Nat.le_succ _)

theorem validate_message_alternation_good (msgs : List Msg) :
    rolesAlternatingFrom .user (validate_message_alternation msgs) = true
    ∧ (∀ m, (validate_message_alternation msgs).getLast? = some m →
        m.role = .assistant)
    ∧ (validate_message_alternation msgs).length ≤ msgs.length := by
  cases msgs with
  | nil =>
    refine ⟨rfl, ?_, by simp [validate_message_alternation]⟩
    intro m hm
    simp [validate_message_alternation] at hm
  | cons m0 rest0 =>
    have h1 : validate_message_alternation (m0 :: rest0)
        = dropTrailingUser (buildAlternation
            ((m0 :: rest0).dropWhile (fun m => !(m.role = .user : Bool))) .user) := rfl
    rw [h1]
    have halt := buildAlternation_alternates
      ((m0 :: rest0).dropWhile (fun m => !(m.role = .user : Bool))) .user
    obtain ⟨g1, g2, g3⟩ := dropTrailingUser_good _ halt
    refine ⟨g1, g2, ?_⟩
    calc (dropTrailingUser _).length
        ≤ _ := g3
      _ ≤ _ := buildAlternation_length _ _
      _ ≤ _ := length_dropWhile_le _ _

theorem takeLast_length_le (n : Nat) (l : List α) : (takeLast n l).length ≤ n := by
  simp only [takeLast, List.length_drop]
  omega

/-- Claim C3: for every journal (missing and empty journals yielding the
empty context rather than an error), the context window has at most
`RECENT_CONTEXT_LIMIT * 2 = 6` messages, strictly alternates roles
starting with user, and never ends on a user message. -/
theorem claim_C3_context_window :
    RECENT_CONTEXT_LIMIT = 3
    ∧ get_recent_context none = []
    ∧ get_recent_context (some []) = []
    ∧ ∀ journal : Option (List JLine),
        (get_recent_context journal).length ≤ RECENT_CONTEXT_LIMIT * 2
        ∧ rolesAlternatingFrom .user (get_recent_context journal) = true
        ∧ ∀ m, (get_recent_context journal).getLast? = some m →
            m.role = .assistant := by
  refine ⟨rfl, rfl, rfl, ?_⟩
  intro journal
  cases journal with
  | none =>
    refine ⟨?_, rfl, ?_⟩
    · show (0 : Nat) ≤ RECENT_CONTEXT_LIMIT * 2
      simp
    · intro m hm
      exact Option.noConfusion hm
  | some lines =>
    have hunfold : get_recent_context (some lines)
        = match collectMsgs ((takeLast 200 lines).reverse) [] with
          | .error _ => []
          | .ok messages =>
              validate_message_alternation
                (takeLast (RECENT_CONTEXT_LIMIT * 2) messages.reverse) := rfl
    cases hc : collectMsgs ((takeLast 200 lines).reverse) [] with
    | error e =>
      rw [hunfold, hc]
      refine ⟨by simp, rfl, ?_⟩
      intro m hm
      simp at hm
    | ok messages =>
      rw [hunfold, hc]
      obtain ⟨g1, g2, g3⟩ := validate_message_alternation_good
        (takeLast (RECENT_CONTEXT_LIMIT * 2) messages.reverse)
      refine ⟨?_, g1, g2⟩
      exact le_trans g3 (takeLast_length_le _ _)

/-- Witness for C3: a concrete two-line journal produces a context ending
on an assistant message, and the theorem instantiated there yields the
role fact. -/
theorem claim_C3_witness :
    (get_recent_context (some
        [ .jsonVal (.jobj [("type", .jstr "user_message"), ("content", .jstr "q")]),
          .jsonVal (.jobj [("type", .jstr "assistant_message"), ("content", .jstr "a")]) ])).getLast?
      = some ⟨Role.assistant, JVal.jstr "a"⟩
    ∧ (⟨Role.assistant, JVal.jstr "a"⟩ : Msg).role = Role.assistant := by
  refine ⟨rfl, ?_⟩
  exact (claim_C3_context_window.2.2.2 (some
    [ .jsonVal (.jobj [("type", .jstr "user_message"), ("content", .jstr "q")]),
      .jsonVal (.jobj [("type", .jstr "assistant_message"), ("content", .jstr "a")]) ])).2.2
    ⟨Role.assistant, JVal.jstr "a"⟩ rfl

/-- Claim C9 names the intended behavior, but the code diverges on a line
holding valid JSON that is not an object: `_parse_journal_entry` catches
only `JSONDecodeError`, so `entry.get` on such a line raises
`AttributeError`, which the outer handler of `_get_recent_context` turns
into an empty context — discarding the well-formed entries instead of
skipping the malformed line.  The same journal without the offending line
yields both messages, and a line that fails JSON decoding is skipped as
documented. -/
theorem claim_C9_malformed_line_wipes_context :
    parse_journal_entry (JLine.jsonVal (JVal.jnum 42)) = .error .attributeError
    ∧ get_recent_context (some
        [ .jsonVal (.jobj [("type", .jstr "user_message"), ("content", .jstr "hi")]),
          .jsonVal (.jobj [("type", .jstr "assistant_message"), ("content", .jstr "hello")]),
          .jsonVal (.jnum 42) ]) = []
    ∧ get_recent_context (some
        [ .jsonVal (.jobj [("type", .jstr "user_message"), ("content", .jstr "hi")]),
          .jsonVal (.jobj [("type", .jstr "assistant_message"), ("content", .jstr "hello")]) ])
        = [⟨.user, .jstr "hi"⟩, ⟨.assistant, .jstr "hello"⟩]
    ∧ get_recent_context (some [JLine.invalid]) = [] := by
  exact ⟨rfl, rfl, rfl, rfl⟩

theorem isEmpty_false_of_ne_nil {α : Type _} {l : List α} (h : l ≠ []) :
    l.isEmpty = false := by
  cases l with
  | nil => exact absurd rfl h
  | cons a t => rfl

theorem runLoopAux_eq_budget (model : List AnthMsg → ModelResponse)
    (execTool : ToolBlock → String) (max_tools : Nat)
    (messages : List AnthMsg) (tool_calls : Nat)
    (h : ¬ tool_calls < max_tools) :
    runLoopAux model execTool max_tools messages tool_calls
      = (.budgetExceeded TOO_MANY_TOOLS_MESSAGE, []) := by
  conv_lhs => unfold runLoopAux
  rw [if_neg h]

theorem runLoopAux_eq_halt (model : List AnthMsg → ModelResponse)
    (execTool : ToolBlock → String) (max_tools : Nat)
    (messages : List AnthMsg) (tool_calls : Nat) (r : RunResult)
    (h : tool_calls < max_tools)
    (hstep : loopTurn execTool (model messages) messages tool_calls = .halt r) :
    runLoopAux model execTool max_tools messages tool_calls
      = (r, [tool_calls]) := by
  conv_lhs => unfold runLoopAux
  rw [if_pos h]
  split
  next r2 heq =>
    rw [hstep] at heq
    injection heq with h1
    rw [h1]
  next ms2 tc2 heq =>
    rw [hstep] at heq
    simp at heq

theorem runLoopAux_eq_next (model : List AnthMsg → ModelResponse)
    (execTool : ToolBlock → String) (max_tools : Nat)
    (messages : List AnthMsg) (tool_calls : Nat)
    (messages2 : List AnthMsg) (tool_calls2 : Nat)
    (h : tool_calls < max_tools)
    (hstep : loopTurn execTool (model messages) messages tool_calls
      = .next messages2 tool_calls2) :
    runLoopAux model execTool max_tools messages tool_calls
      = ((runLoopAux model execTool max_tools messages2 tool_calls2).1,
         tool_calls
           :: (runLoopAux model execTool max_tools messages2 tool_calls2).2) := by
  conv_lhs => unfold runLoopAux
  rw [if_pos h]
  split
  next r2 heq =>
    rw [hstep] at heq
    simp at heq
  next ms2 tc2 heq =>
    rw [hstep] at heq
    injection heq with h1 h2
    rw [h1, h2]

theorem loopTurn_next_gt (execTool : ToolBlock → String)
    (response : ModelResponse) (messages : List AnthMsg)
    (tool_calls : Nat) (messages2 : List AnthMsg) (tool_calls2 : Nat)
    (hstep : loopTurn execTool response messages tool_calls
      = .next messages2 tool_calls2) :
    tool_calls < tool_calls2 := by
  unfold loopTurn at hstep
  split at hstep
  · simp at hstep
  · next hne =>
    split at hstep
    · simp at hstep
    · injection hstep with h1 h2
      have hpos : 0 < response.toolBlocks.length := by
        cases hl : response.toolBlocks with
        | nil => rw [hl] at hne; exact absurd rfl hne
        | cons a t => simp [hl]
      simp only [List.length_map] at h2
      omega

/-- Main induction for the orchestration loop: the counter trace is a
non-decreasing sequence of values at least the starting counter, with at
most `max_tools - tool_calls` entries (so at most `max_tools` model
calls from a fresh loop). -/
theorem runLoopAux_trace (model : List AnthMsg → ModelResponse)
    (execTool : ToolBlock → String) (max_tools : Nat) :
    ∀ (N : Nat) (messages : List AnthMsg) (tool_calls : Nat),
      max_tools - tool_calls ≤ N →
      List.Chain' (· ≤ ·)
        (runLoopAux model execTool max_tools messages tool_calls).2
      ∧ (∀ x ∈ (runLoopAux model execTool max_tools messages tool_calls).2,
          tool_calls ≤ x)
      ∧ (runLoopAux model execTool max_tools messages tool_calls).2.length
          ≤ max_tools - tool_calls := by
  intro N
  induction N with
  | zero =>
    intro messages tool_calls hN
    rw [runLoopAux_eq_budget model execTool max_tools messages tool_calls
      (by omega)]
    exact ⟨List.chain'_nil, by simp, by simp⟩
  | succ n ih =>
    intro messages tool_calls hN
    by_cases h : tool_calls < max_tools
    · cases hstep : loopTurn execTool (model messages) messages tool_calls with
      | halt r =>
        rw [runLoopAux_eq_halt model execTool max_tools messages tool_calls r
          h hstep]
        refine ⟨List.chain'_singleton _, by simp, ?_⟩
        simp only [List.length_singleton]
        omega
      | next ms2 tc2 =>
        have hlt : tool_calls < tc2 :=
          loopTurn_next_gt execTool (model messages) messages tool_calls
            ms2 tc2 hstep
        obtain ⟨ihc, ihlb, ihlen⟩ := ih ms2 tc2 (by omega)
        rw [runLoopAux_eq_next model execTool max_tools messages tool_calls
          ms2 tc2 h hstep]
        refine ⟨?_, ?_, ?_⟩
        · rw [List.chain'_cons']
          refine ⟨?_, ihc⟩
          intro y hy
          have hymem : y ∈ (runLoopAux model execTool max_tools ms2 tc2).2 :=
            List.mem_of_mem_head? hy
          exact le_trans (le_of_lt hlt) (ihlb y hymem)
        · intro x hx
          rcases List.mem_cons.mp hx with h1 | h1
          · omega
          · exact le_trans (le_of_lt hlt) (ihlb x h1)
        · simp only [List.length_cons]
          omega
    · rw [runLoopAux_eq_budget model execTool max_tools messages tool_calls h]
      exact ⟨List.chain'_nil, by simp, by simp⟩

theorem runLoopAux_nil_trace (model : List AnthMsg → ModelResponse)
    (execTool : ToolBlock → String) (max_tools : Nat)
    (messages : List AnthMsg) (tool_calls : Nat)
    (h2 : (runLoopAux model execTool max_tools messages tool_calls).2 = []) :
    runLoopAux model execTool max_tools messages tool_calls
      = (.budgetExceeded TOO_MANY_TOOLS_MESSAGE, []) := by
  by_cases h : tool_calls < max_tools
  · cases hstep : loopTurn execTool (model messages) messages tool_calls with
    | halt r =>
      rw [runLoopAux_eq_halt model execTool max_tools messages tool_calls r
        h hstep] at h2
      simp at h2
    | next ms2 tc2 =>
      rw [runLoopAux_eq_next model execTool max_tools messages tool_calls
        ms2 tc2 h hstep] at h2
      simp at h2
  · exact runLoopAux_eq_budget model execTool max_tools messages tool_calls h

/-- Claim C1: the two budget tiers are 5 (simple) and 20 (standard); for
every model behavior and tool executor, the counter values at successive
model calls are non-decreasing, the loop makes at most
`max_tools - tool_calls` further model calls (so it terminates even when
every response requests tools), and once the counter has reached the
budget the loop makes no model call at all and returns the fixed
too-many-tool-calls message. -/
theorem claim_C1_budget_and_termination :
    MAX_TOOL_CALLS_SIMPLE = 5 ∧ MAX_TOOL_CALLS = 20
    ∧ ∀ (model : List AnthMsg → ModelResponse)
        (execTool : ToolBlock → String) (max_tools : Nat)
        (messages : List AnthMsg) (tool_calls : Nat),
        List.Chain' (· ≤ ·)
          (runLoopAux model execTool max_tools messages tool_calls).2
        ∧ (runLoopAux model execTool max_tools messages tool_calls).2.length
            ≤ max_tools - tool_calls
        ∧ (max_tools ≤ tool_calls →
            runLoopAux model execTool max_tools messages tool_calls
              = (.budgetExceeded TOO_MANY_TOOLS_MESSAGE, []))
        ∧ ∀ is_simple messages0,
            run_agent_loop model execTool is_simple messages0
              = runLoopAux model execTool
                  (if is_simple then MAX_TOOL_CALLS_SIMPLE else MAX_TOOL_CALLS)
                  messages0 0 := by
  refine ⟨rfl, rfl, ?_⟩
  intro model execTool max_tools messages tool_calls
  obtain ⟨hc, hlb, hlen⟩ := runLoopAux_trace model execTool max_tools
    (max_tools - tool_calls) messages tool_calls (le_refl _)
  refine ⟨hc, hlen, ?_, fun is_simple messages0 => rfl⟩
  intro hge
  exact runLoopAux_eq_budget model execTool max_tools messages tool_calls
    (by omega)

/-- Witness for C1: a fresh loop entered with the counter already past a
budget of 5 makes no model call and returns the fixed message. -/
theorem claim_C1_witness :
    runLoopAux (fun _ => ⟨[], []⟩) (fun _ => "ok") 5 [] 7
      = (.budgetExceeded TOO_MANY_TOOLS_MESSAGE, []) :=
  ((claim_C1_budget_and_termination.2.2 (fun _ => ⟨[], []⟩) (fun _ => "ok")
      5 [] 7).2.2.1 (by decide))

theorem bool_not_true {b : Bool} (h : ¬ b = true) : b = false := by
  cases b with
  | false => rfl
  | true => exact absurd rfl h

theorem early_return_fires_iff (text_blocks : List String)
    (toolBlocks : List ToolBlock) (execTool : ToolBlock → String) :
    early_return_fires text_blocks
        (toolBlocks.map (fun b => ToolResult.mk b.id (execTool b))) = true
      ↔ text_blocks ≠ []
        ∧ (∀ b ∈ toolBlocks, tool_succeeded (execTool b) = true)
        ∧ is_intent_text (extract_final_text text_blocks) = false := by
  cases text_blocks with
  | nil => simp [early_return_fires]
  | cons t ts =>
    simp only [early_return_fires, List.isEmpty_cons, Bool.not_false,
      Bool.true_and, Bool.false_eq_true, if_false, Bool.and_eq_true,
      List.all_eq_true, Bool.not_eq_true', extract_final_text]
    constructor
    · rintro ⟨hall, hint⟩
      refine ⟨by simp, ?_, hint⟩
      intro b hb
      exact hall _ (List.mem_map.mpr ⟨b, hb, rfl⟩)
    · rintro ⟨-, hall, hint⟩
      refine ⟨?_, hint⟩
      intro r hr
      obtain ⟨b, hb, rfl⟩ := List.mem_map.mp hr
      exact hall b hb

theorem loopTurn_eq_early (execTool : ToolBlock → String)
    (response : ModelResponse) (messages : List AnthMsg) (tool_calls : Nat)
    (hne : response.toolBlocks.isEmpty = false)
    (hfires : early_return_fires response.textBlocks
      (response.toolBlocks.map (fun b => ToolResult.mk b.id (execTool b)))
        = true) :
    loopTurn execTool response messages tool_calls
      = .halt (.earlyReturn (extract_final_text response.textBlocks)) := by
  simp [loopTurn, hne, hfires]

theorem loopTurn_eq_continue (execTool : ToolBlock → String)
    (response : ModelResponse) (messages : List AnthMsg) (tool_calls : Nat)
    (hne : response.toolBlocks.isEmpty = false)
    (hnf : early_return_fires response.textBlocks
      (response.toolBlocks.map (fun b => ToolResult.mk b.id (execTool b)))
        = false) :
    loopTurn execTool response messages tool_calls
      = .next (messages
          ++ [⟨.assistant, .blocks response⟩,
              ⟨.user, .results (response.toolBlocks.map
                (fun b => ToolResult.mk b.id (execTool b)))⟩])
        (tool_calls
          + (response.toolBlocks.map
              (fun b => ToolResult.mk b.id (execTool b))).length) := by
  simp [loopTurn, hne, hnf]

theorem execToolsInteractive_nocancel (execTool : ToolBlock → String) :
    ∀ (blocks : List ToolBlock) (poll : Nat) (log : List ToolStatus),
      execToolsInteractive execTool (fun _ => false) blocks poll log
        = (some (blocks.map (fun b => ToolResult.mk b.id (execTool b))),
           poll + blocks.length,
           log ++ blocks.map
             (fun b => ToolStatus.mk b.name (some (tool_succeeded (execTool b))))) := by
  intro blocks
  induction blocks with
  | nil =>
    intro poll log
    simp [execToolsInteractive]
  | cons b rest ih =>
    intro poll log
    simp only [execToolsInteractive, Bool.false_eq_true, if_false]
    simp only [ih]
    simp only [List.map_cons, List.length_cons, Prod.mk.injEq]
    refine ⟨by trivial, by omega, by simp⟩

/-- One-step unfolding of the interactive loop on a nonempty script. -/
theorem runInteractive_cons (execTool : ToolBlock → String)
    (cancel : Nat → Bool) (response : ModelResponse)
    (rest : List ModelResponse) (replies : List (Option String))
    (poll tool_calls : Nat) (tool_log : List ToolStatus) :
    run_agent_loop_interactive execTool cancel (response :: rest) replies
        poll tool_calls tool_log
      = match interactiveStep execTool cancel response replies poll
            tool_calls tool_log with
        | .halt r events => (r, events)
        | .next replies2 poll2 tool_calls2 log2 events =>
            ((run_agent_loop_interactive execTool cancel rest replies2 poll2
                tool_calls2 log2).1,
             events ++ (run_agent_loop_interactive execTool cancel rest
                replies2 poll2 tool_calls2 log2).2) := rfl

theorem runInteractive_cons_halt (execTool : ToolBlock → String)
    (cancel : Nat → Bool) (response : ModelResponse)
    (rest : List ModelResponse) (replies : List (Option String))
    (poll tool_calls : Nat) (tool_log : List ToolStatus)
    (r : IResult) (events : List IEvent)
    (hstep : interactiveStep execTool cancel response replies poll
      tool_calls tool_log = .halt r events) :
    run_agent_loop_interactive execTool cancel (response :: rest) replies
        poll tool_calls tool_log = (r, events) := by
  rw [runInteractive_cons, hstep]

theorem runInteractive_cons_next (execTool : ToolBlock → String)
    (cancel : Nat → Bool) (response : ModelResponse)
    (rest : List ModelResponse) (replies : List (Option String))
    (poll tool_calls : Nat) (tool_log : List ToolStatus)
    (replies2 : List (Option String)) (poll2 tool_calls2 : Nat)
    (log2 : List ToolStatus) (events : List IEvent)
    (hstep : interactiveStep execTool cancel response replies poll
      tool_calls tool_log = .next replies2 poll2 tool_calls2 log2 events) :
    run_agent_loop_interactive execTool cancel (response :: rest) replies
        poll tool_calls tool_log
      = ((run_agent_loop_interactive execTool cancel rest replies2 poll2
            tool_calls2 log2).1,
         events ++ (run_agent_loop_interactive execTool cancel rest replies2
            poll2 tool_calls2 log2).2) := by
  rw [runInteractive_cons, hstep]

theorem interactiveStep_no_checkpoint (execTool : ToolBlock → String)
    (cancel : Nat → Bool) (response : ModelResponse)
    (replies : List (Option String)) (poll tool_calls : Nat)
    (tool_log : List ToolStatus)
    (hcancel : cancel poll = false)
    (hdue : checkpoint_due tool_calls = false) :
    interactiveStep execTool cancel response replies poll tool_calls tool_log
      = interactiveTurn execTool cancel response replies (poll + 1)
          tool_calls tool_log [] := by
  unfold interactiveStep
  rw [hcancel, hdue]
  rfl

theorem interactiveStep_checkpoint_stop (execTool : ToolBlock → String)
    (cancel : Nat → Bool) (response : ModelResponse)
    (replies : List (Option String)) (poll tool_calls : Nat)
    (tool_log : List ToolStatus)
    (hcancel : cancel poll = false)
    (hdue : checkpoint_due tool_calls = true)
    (hdec : on_checkpoint_decision (replies.headD none) = false) :
    interactiveStep execTool cancel response replies poll tool_calls tool_log
      = .halt (.checkpointStopped tool_calls tool_log)
          [.checkpointEvt tool_calls false] := by
  unfold interactiveStep
  rw [hcancel, hdue, hdec]
  rfl

theorem interactiveStep_checkpoint_continue (execTool : ToolBlock → String)
    (cancel : Nat → Bool) (response : ModelResponse)
    (replies : List (Option String)) (poll tool_calls : Nat)
    (tool_log : List ToolStatus)
    (hcancel : cancel poll = false)
    (hdue : checkpoint_due tool_calls = true)
    (hdec : on_checkpoint_decision (replies.headD none) = true) :
    interactiveStep execTool cancel response replies poll tool_calls tool_log
      = interactiveTurn execTool cancel response replies.tail (poll + 1)
          tool_calls tool_log [.checkpointEvt tool_calls true] := by
  unfold interactiveStep
  rw [hcancel, hdue, hdec]
  rfl

/-- Every outcome of the turn body carries the checkpoint events followed
by exactly one model-call event at the current counter. -/
theorem interactiveTurn_events (execTool : ToolBlock → String)
    (cancel : Nat → Bool) (response : ModelResponse)
    (replies : List (Option String)) (poll tool_calls : Nat)
    (tool_log : List ToolStatus) (ckEvents : List IEvent) :
    (∃ r, interactiveTurn execTool cancel response replies poll tool_calls
        tool_log ckEvents
        = .halt r (ckEvents ++ [.modelCall tool_calls]))
    ∨ (∃ replies2 poll2 tool_calls2 log2,
        interactiveTurn execTool cancel response replies poll tool_calls
          tool_log ckEvents
        = .next replies2 poll2 tool_calls2 log2
            (ckEvents ++ [.modelCall tool_calls])) := by
  unfold interactiveTurn
  split
  · exact Or.inl ⟨_, rfl⟩
  · split
    · exact Or.inl ⟨_, rfl⟩
    · split
      · exact Or.inl ⟨_, rfl⟩
      · exact Or.inr ⟨_, _, _, _, rfl⟩

theorem interactiveTurn_nocancel_early (execTool : ToolBlock → String)
    (response : ModelResponse) (replies : List (Option String))
    (poll tool_calls : Nat) (tool_log : List ToolStatus)
    (ckEvents : List IEvent)
    (hne : response.toolBlocks.isEmpty = false)
    (hfires : early_return_fires response.textBlocks
      (response.toolBlocks.map (fun b => ToolResult.mk b.id (execTool b)))
        = true) :
    interactiveTurn execTool (fun _ => false) response replies poll
        tool_calls tool_log ckEvents
      = .halt (.earlyReturn (extract_final_text response.textBlocks))
          (ckEvents ++ [.modelCall tool_calls]) := by
  unfold interactiveTurn
  rw [execToolsInteractive_nocancel]
  simp [hne, hfires]

theorem interactiveTurn_nocancel_next (execTool : ToolBlock → String)
    (response : ModelResponse) (replies : List (Option String))
    (poll tool_calls : Nat) (tool_log : List ToolStatus)
    (ckEvents : List IEvent)
    (hne : response.toolBlocks.isEmpty = false)
    (hnf : early_return_fires response.textBlocks
      (response.toolBlocks.map (fun b => ToolResult.mk b.id (execTool b)))
        = false) :
    interactiveTurn execTool (fun _ => false) response replies poll
        tool_calls tool_log ckEvents
      = .next replies (poll + response.toolBlocks.length)
          (tool_calls + (response.toolBlocks.map
            (fun b => ToolResult.mk b.id (execTool b))).length)
          (tool_log ++ response.toolBlocks.map
            (fun b => ToolStatus.mk b.name (some (tool_succeeded (execTool b)))))
          (ckEvents ++ [.modelCall tool_calls]) := by
  unfold interactiveTurn
  rw [execToolsInteractive_nocancel]
  simp [hne, hnf]

/-- Unfolding of the interactive loop on the empty script when the
cancellation poll is clear. -/
theorem runInteractive_nil (execTool : ToolBlock → String)
    (cancel : Nat → Bool) (replies : List (Option String))
    (poll tool_calls : Nat) (tool_log : List ToolStatus)
    (hcancel : cancel poll = false) :
    run_agent_loop_interactive execTool cancel [] replies poll tool_calls
        tool_log
      = if checkpoint_due tool_calls then
          (if on_checkpoint_decision (replies.headD none) then
            (.scriptEnded tool_calls tool_log,
             [.checkpointEvt tool_calls true])
          else
            (.checkpointStopped tool_calls tool_log,
             [.checkpointEvt tool_calls false]))
        else (.scriptEnded tool_calls tool_log, []) := by
  unfold run_agent_loop_interactive
  rw [hcancel]
  rfl

/-- With no cancellation, an empty event list can only come from the
empty script with the checkpoint not due, in which case the run ends in
`scriptEnded`. -/
theorem runInteractive_nil_events (execTool : ToolBlock → String) :
    ∀ (turns : List ModelResponse) (replies : List (Option String))
      (poll tool_calls : Nat) (tool_log : List ToolStatus),
      (run_agent_loop_interactive execTool (fun _ => false) turns replies
          poll tool_calls tool_log).2 = [] →
      ∃ tc2 log2,
        run_agent_loop_interactive execTool (fun _ => false) turns replies
            poll tool_calls tool_log
          = (.scriptEnded tc2 log2, []) := by
  intro turns
  cases turns with
  | nil =>
    intro replies poll tool_calls tool_log h
    rw [runInteractive_nil execTool (fun _ => false) replies poll tool_calls
      tool_log rfl] at h ⊢
    by_cases hdue : checkpoint_due tool_calls = true
    · by_cases hdec : on_checkpoint_decision (replies.headD none) = true
      · exfalso
        rw [hdue, hdec] at h
        simp at h
      · exfalso
        rw [hdue, bool_not_true hdec] at h
        simp at h
    · refine ⟨tool_calls, tool_log, ?_⟩
      rw [bool_not_true hdue]
      simp
  | cons response rest =>
    intro replies poll tool_calls tool_log h
    exfalso
    rw [runInteractive_cons] at h
    by_cases hdue : checkpoint_due tool_calls = true
    · by_cases hdec : on_checkpoint_decision (replies.headD none) = true
      · rw [interactiveStep_checkpoint_continue execTool (fun _ => false)
          response replies poll tool_calls tool_log rfl hdue hdec] at h
        rcases interactiveTurn_events execTool (fun _ => false) response
            replies.tail (poll + 1) tool_calls tool_log
            [.checkpointEvt tool_calls true] with ⟨r, hr⟩ | ⟨rp, p2, tc2, lg2, hr⟩
        · rw [hr] at h
          simp at h
        · rw [hr] at h
          simp at h
      · rw [interactiveStep_checkpoint_stop execTool (fun _ => false)
          response replies poll tool_calls tool_log rfl hdue
          (bool_not_true hdec)] at h
        simp at h
    · rw [interactiveStep_no_checkpoint execTool (fun _ => false)
        response replies poll tool_calls tool_log rfl (bool_not_true hdue)] at h
      rcases interactiveTurn_events execTool (fun _ => false) response
          replies (poll + 1) tool_calls tool_log []
          with ⟨r, hr⟩ | ⟨rp, p2, tc2, lg2, hr⟩
      · rw [hr] at h
        simp at h
      · rw [hr] at h
        simp at h

/-- Claim C2: in a loop turn whose response has at least one tool-use
block (and which the loop reaches: the budget not yet exhausted in
`run_agent_loop`, respectively no pending checkpoint in the interactive
loop with no cancellation), the loop returns that turn's concatenated
text after exactly one model call — the early return — if and only if
the response has a text block, every tool result of the turn passes
`tool_succeeded`, and the joined text is not intent narration; in
particular a tool-use-only response with no text never early-returns. -/
theorem claim_C2_early_return :
    (∀ (model : List AnthMsg → ModelResponse) (execTool : ToolBlock → String)
        (max_tools : Nat) (messages : List AnthMsg) (tool_calls : Nat),
        tool_calls < max_tools →
        (model messages).toolBlocks ≠ [] →
        (runLoopAux model execTool max_tools messages tool_calls
            = (.earlyReturn (extract_final_text (model messages).textBlocks),
               [tool_calls])
          ↔ (model messages).textBlocks ≠ []
            ∧ (∀ b ∈ (model messages).toolBlocks,
                tool_succeeded (execTool b) = true)
            ∧ is_intent_text
                (extract_final_text (model messages).textBlocks) = false))
    ∧ (∀ (execTool : ToolBlock → String) (response : ModelResponse)
        (rest : List ModelResponse) (replies : List (Option String))
        (poll tool_calls : Nat) (tool_log : List ToolStatus),
        checkpoint_due tool_calls = false →
        response.toolBlocks ≠ [] →
        (run_agent_loop_interactive execTool (fun _ => false)
            (response :: rest) replies poll tool_calls tool_log
            = (.earlyReturn (extract_final_text response.textBlocks),
               [.modelCall tool_calls])
          ↔ response.textBlocks ≠ []
            ∧ (∀ b ∈ response.toolBlocks, tool_succeeded (execTool b) = true)
            ∧ is_intent_text (extract_final_text response.textBlocks)
                = false)) := by
  constructor
  · intro model execTool max_tools messages tool_calls h htools
    have hne : (model messages).toolBlocks.isEmpty = false :=
      isEmpty_false_of_ne_nil htools
    constructor
    · intro heq
      by_cases hfires : early_return_fires (model messages).textBlocks
          ((model messages).toolBlocks.map
            (fun b => ToolResult.mk b.id (execTool b))) = true
      · exact (early_return_fires_iff (model messages).textBlocks
          (model messages).toolBlocks execTool).mp hfires
      · exfalso
        have hstep := loopTurn_eq_continue execTool (model messages) messages
          tool_calls hne (bool_not_true hfires)
        rw [runLoopAux_eq_next model execTool max_tools messages tool_calls
          _ _ h hstep] at heq
        have h2 := congrArg Prod.snd heq
        simp only at h2
        have hnil : (runLoopAux model execTool max_tools
            (messages ++ [⟨.assistant, .blocks (model messages)⟩,
              ⟨.user, .results ((model messages).toolBlocks.map
                (fun b => ToolResult.mk b.id (execTool b)))⟩])
            (tool_calls + ((model messages).toolBlocks.map
              (fun b => ToolResult.mk b.id (execTool b))).length)).2 = [] := by
          injection h2
        have hbudget := runLoopAux_nil_trace model execTool max_tools _ _ hnil
        have h1 := congrArg Prod.fst heq
        rw [hbudget] at h1
        simp at h1
    · rintro ⟨ht, hsucc, hint⟩
      have hfires := (early_return_fires_iff (model messages).textBlocks
        (model messages).toolBlocks execTool).mpr ⟨ht, hsucc, hint⟩
      have hstep := loopTurn_eq_early execTool (model messages) messages
        tool_calls hne hfires
      exact runLoopAux_eq_halt model execTool max_tools messages tool_calls
        _ h hstep
  · intro execTool response rest replies poll tool_calls tool_log hdue htools
    have hne : response.toolBlocks.isEmpty = false :=
      isEmpty_false_of_ne_nil htools
    constructor
    · intro heq
      by_cases hfires : early_return_fires response.textBlocks
          (response.toolBlocks.map
            (fun b => ToolResult.mk b.id (execTool b))) = true
      · exact (early_return_fires_iff response.textBlocks
          response.toolBlocks execTool).mp hfires
      · exfalso
        have hturn := interactiveTurn_nocancel_next execTool response replies
          (poll + 1) tool_calls tool_log [] hne (bool_not_true hfires)
        have hstep := interactiveStep_no_checkpoint execTool (fun _ => false)
          response replies poll tool_calls tool_log rfl hdue
        rw [hturn] at hstep
        rw [runInteractive_cons_next execTool (fun _ => false) response rest
          replies poll tool_calls tool_log _ _ _ _ _ hstep] at heq
        have h2 := congrArg Prod.snd heq
        simp only [List.nil_append] at h2
        have hnil : (run_agent_loop_interactive execTool (fun _ => false) rest
            replies (poll + 1 + response.toolBlocks.length)
            (tool_calls + (response.toolBlocks.map
              (fun b => ToolResult.mk b.id (execTool b))).length)
            (tool_log ++ response.toolBlocks.map
              (fun b => ToolStatus.mk b.name
                (some (tool_succeeded (execTool b)))))).2 = [] := by
          injection h2
        obtain ⟨tc2, lg2, hrun⟩ := runInteractive_nil_events execTool rest
          replies (poll + 1 + response.toolBlocks.length) _ _ hnil
        have h1 := congrArg Prod.fst heq
        rw [hrun] at h1
        simp at h1
    · rintro ⟨ht, hsucc, hint⟩
      have hfires := (early_return_fires_iff response.textBlocks
        response.toolBlocks execTool).mpr ⟨ht, hsucc, hint⟩
      have hturn := interactiveTurn_nocancel_early execTool response replies
        (poll + 1) tool_calls tool_log [] hne hfires
      have hstep := interactiveStep_no_checkpoint execTool (fun _ => false)
        response replies poll tool_calls tool_log rfl hdue
      rw [hturn] at hstep
      have := runInteractive_cons_halt execTool (fun _ => false) response rest
        replies poll tool_calls tool_log _ _ hstep
      rw [this]
      rfl

/-- Witness for C2: a concrete turn with one successful tool and the text
"Done." early-returns after one model call, in both loops. -/
theorem claim_C2_witness :
    runLoopAux (fun _ => ⟨["Done."], [⟨"1", "t", []⟩]⟩) (fun _ => "ok")
        20 [] 0
      = (.earlyReturn "Done.", [0])
    ∧ run_agent_loop_interactive (fun _ => "ok") (fun _ => false)
        [⟨["Done."], [⟨"1", "t", []⟩]⟩] [] 0 0 []
      = (.earlyReturn "Done.", [.modelCall 0]) := by
  constructor
  · exact (claim_C2_early_return.1 (fun _ => ⟨["Done."], [⟨"1", "t", []⟩]⟩)
      (fun _ => "ok") 20 [] 0 (by decide) (by simp)).mpr
      ⟨by simp, fun b _ => by decide, by decide⟩
  · exact (claim_C2_early_return.2 (fun _ => "ok") ⟨["Done."], [⟨"1", "t", []⟩]⟩
      [] [] 0 0 [] (by decide) (by simp)).mpr
      ⟨by simp, fun b _ => by decide, by decide⟩

/-- Claim C6 as stated is false: the checkpoint gate is
`tool_calls >= 20 and tool_calls % 20 == 0`, so when a multi-tool turn
carries the counter from 19 to 21 the counter is past the budget of
`MAX_TOOL_CALLS = 20` yet the loop keeps making model calls (here a third
model call at counter 21) without ever presenting a checkpoint: the event
trace contains no checkpoint event at all. -/
theorem claim_C6_counterexample :
    run_agent_loop_interactive (fun _ => "ok") (fun _ => false)
        [⟨[], List.replicate 19 ⟨"id", "t", []⟩⟩,
         ⟨[], List.replicate 2 ⟨"id", "t", []⟩⟩,
         ⟨[], List.replicate 1 ⟨"id", "t", []⟩⟩] [] 0 0 []
      = (.scriptEnded 22 (List.replicate 22 ⟨"t", some true⟩),
         [.modelCall 0, .modelCall 19, .modelCall 21])
    ∧ MAX_TOOL_CALLS ≤ 21
    ∧ ∀ tc d, IEvent.checkpointEvt tc d
        ∉ ([.modelCall 0, .modelCall 19, .modelCall 21] : List IEvent) := by
  refine ⟨rfl, by decide, ?_⟩
  intro tc d
  simp

/-- Claim C6, amended: the checkpoint wait is 15 minutes; the checkpoint
fires at the top of an iteration exactly when the counter is at least
`MAX_TOOL_CALLS = 20` and an exact multiple of it (not merely past the
budget, which a multi-tool batch can overshoot); a timeout (`none`) or a
reply normalizing into `CANCEL_KEYWORDS` is a stop decision and the loop
returns the partial tool log before any model call of the iteration; any
other reply (continue or unrecognized) resumes the loop, whose next event
after the checkpoint is a model call. -/
theorem claim_C6_checkpoint :
    CHECKPOINT_TIMEOUT = 15 * 60
    ∧ MAX_TOOL_CALLS = 20
    ∧ (∀ tool_calls, checkpoint_due tool_calls = true
        ↔ MAX_TOOL_CALLS ≤ tool_calls ∧ tool_calls % MAX_TOOL_CALLS = 0)
    ∧ on_checkpoint_decision none = false
    ∧ (∀ raw, on_checkpoint_decision (some raw) = false
        ↔ pyLower (pyStrip raw) ∈ CANCEL_KEYWORDS)
    ∧ ∀ (execTool : ToolBlock → String) (cancel : Nat → Bool)
        (response : ModelResponse) (rest : List ModelResponse)
        (replies : List (Option String)) (poll tool_calls : Nat)
        (tool_log : List ToolStatus),
        cancel poll = false →
        checkpoint_due tool_calls = true →
        ((on_checkpoint_decision (replies.headD none) = false →
            run_agent_loop_interactive execTool cancel (response :: rest)
                replies poll tool_calls tool_log
              = (.checkpointStopped tool_calls tool_log,
                 [.checkpointEvt tool_calls false]))
         ∧ (on_checkpoint_decision (replies.headD none) = true →
            ∃ es, (run_agent_loop_interactive execTool cancel
                (response :: rest) replies poll tool_calls tool_log).2
              = .checkpointEvt tool_calls true
                  :: .modelCall tool_calls :: es)) := by
  refine ⟨rfl, rfl, ?_, rfl, ?_, ?_⟩
  · intro tool_calls
    simp [checkpoint_due, Bool.and_eq_true, decide_eq_true_eq, beq_iff_eq]
  · intro raw
    constructor
    · intro hfalse
      by_cases hc : CANCEL_KEYWORDS.contains (pyLower (pyStrip raw)) = true
      · exact List.elem_iff.mp hc
      · exfalso
        have htrue : on_checkpoint_decision (some raw) = true := by
          show (if CANCEL_KEYWORDS.contains (pyLower (pyStrip raw)) = true
              then false
            else if CONTINUE_KEYWORDS.contains (pyLower (pyStrip raw)) = true
              then true else true) = true
          rw [bool_not_true hc]
          by_cases hcont :
              CONTINUE_KEYWORDS.contains (pyLower (pyStrip raw)) = true
          · rw [hcont]
            rfl
          · rw [bool_not_true hcont]
            rfl
        rw [htrue] at hfalse
        exact Bool.noConfusion hfalse
    · intro hmem
      have hc : CANCEL_KEYWORDS.contains (pyLower (pyStrip raw)) = true :=
        List.elem_iff.mpr hmem
      show (if CANCEL_KEYWORDS.contains (pyLower (pyStrip raw)) = true
          then false
        else if CONTINUE_KEYWORDS.contains (pyLower (pyStrip raw)) = true
          then true else true) = false
      rw [hc]
      rfl
  · intro execTool cancel response rest replies poll tool_calls tool_log
      hcancel hdue
    constructor
    · intro hdec
      exact runInteractive_cons_halt execTool cancel response rest replies
        poll tool_calls tool_log _ _
        (interactiveStep_checkpoint_stop execTool cancel response replies
          poll tool_calls tool_log hcancel hdue hdec)
    · intro hdec
      have hstep := interactiveStep_checkpoint_continue execTool cancel
        response replies poll tool_calls tool_log hcancel hdue hdec
      rcases interactiveTurn_events execTool cancel response replies.tail
          (poll + 1) tool_calls tool_log [.checkpointEvt tool_calls true]
          with ⟨r, hr⟩ | ⟨rp, p2, tc2, lg2, hr⟩
      · rw [hr] at hstep
        rw [runInteractive_cons_halt execTool cancel response rest replies
          poll tool_calls tool_log _ _ hstep]
        exact ⟨[], by simp⟩
      · rw [hr] at hstep
        rw [runInteractive_cons_next execTool cancel response rest replies
          poll tool_calls tool_log _ _ _ _ _ hstep]
        refine ⟨(run_agent_loop_interactive execTool cancel rest rp p2 tc2
          lg2).2, by simp⟩

/-- Witness for C6: with the counter exactly at the budget of 20, a
"stop" reply ends the loop with the partial log before any model call,
and a "continue" reply resumes with a model call right after the
checkpoint. -/
theorem claim_C6_witness :
    run_agent_loop_interactive (fun _ => "ok") (fun _ => false)
        [⟨["hi"], []⟩] [some "stop"] 0 20 [⟨"t", some true⟩]
      = (.checkpointStopped 20 [⟨"t", some true⟩], [.checkpointEvt 20 false])
    ∧ ∃ es, (run_agent_loop_interactive (fun _ => "ok") (fun _ => false)
        [⟨["hi"], []⟩] [some "continue"] 0 20 [⟨"t", some true⟩]).2
      = .checkpointEvt 20 true :: .modelCall 20 :: es := by
  constructor
  · exact ((claim_C6_checkpoint.2.2.2.2.2 (fun _ => "ok") (fun _ => false)
      ⟨["hi"], []⟩ [] [some "stop"] 0 20 [⟨"t", some true⟩] rfl
      (by decide)).1 (by decide))
  · exact ((claim_C6_checkpoint.2.2.2.2.2 (fun _ => "ok") (fun _ => false)
      ⟨["hi"], []⟩ [] [some "continue"] 0 20 [⟨"t", some true⟩] rfl
      (by decide)).2 (by decide))

end RubberDuck
